import Mathlib

/-!
Verification development for the debug location translation layer of the
vscode-jupyter extension: a shallow embedding of the interactive-window
`KernelDebugAdapter` (cell dump store, coordinate translator, breakpoint
partitioner) and of the notebook `KernelDebugAdapter` (Map-based cell dump
store), together with theorems about the testable properties of this layer.

Line numbers are modelled as `Int` (JavaScript numbers used as exact
integers here), paths and URIs as `String`.  JavaScript exceptions are
modelled with `Except String`; a function that cannot throw returns its
value directly.  External collaborators (the kernel session answering
`dumpCell` and forwarded requests) are modelled as oracle functions passed
in as parameters.
-/

namespace JupyterDebug

/-- Split a character list at every occurrence of the character `c`: the
behaviour of `String.splitOn` for a one-character separator, written as a
structural recursion. -/
def splitOnChar (c : Char) : List Char → List (List Char)
  | [] => [[]]
  | x :: xs =>
    if x = c then [] :: splitOnChar c xs
    else
      match splitOnChar c xs with
      | [] => [[x]]
      | h :: t => (x :: h) :: t

/-- The `/`-separated segments of a path string. -/
def pathSegments (p : String) : List String :=
  (splitOnChar '/' p.data).map String.mk

/-- Whether a path string starts with `/` (`p.startsWith "/"`). -/
def startsWithSlash (p : String) : Bool :=
  match p.data with
  | c :: _ => c == '/'
  | [] => false

/-- Model of posix `path.basename` (as used via `platform/vscode-path/path`):
the last nonempty `/`-separated segment of the path. -/
def basename (p : String) : String :=
  String.mk (((splitOnChar '/' p.data).filter (fun l => !l.isEmpty)).getLast?.getD [])

/-- One step of posix path normalization: consume the remaining segments,
keeping an accumulator of resolved segments in reverse order. -/
def normalizeSegments (isAbs : Bool) : List String → List String → List String
  | acc, [] => acc.reverse
  | acc, c :: cs =>
    if c = "" ∨ c = "." then normalizeSegments isAbs acc cs
    else if c = ".." then
      match acc with
      | [] => if isAbs then normalizeSegments isAbs [] cs
              else normalizeSegments isAbs [".."] cs
      | top :: rest =>
        if top = ".." then normalizeSegments isAbs (".." :: acc) cs
        else normalizeSegments isAbs rest cs
    else normalizeSegments isAbs (c :: acc) cs

/-- Model of posix `path.normalize` (as used via `platform/vscode-path/path`):
collapses repeated separators and resolves `.` and `..` segments (trailing
separators are dropped, which the claims below never depend on). -/
def normalizePath (p : String) : String :=
  let isAbs := startsWithSlash p
  let body := String.intercalate "/" (normalizeSegments isAbs [] (pathSegments p))
  if isAbs = true then "/" ++ body else if body = "" then "." else body

/-- Drop everything up to and including the first `://`; `none` when the
string contains no `://`. -/
def dropScheme : List Char → Option (List Char)
  | ':' :: '/' :: '/' :: rest => some rest
  | _ :: rest => dropScheme rest
  | [] => none

/-- Model of `Uri.parse(s).path`: the part after the `scheme://` prefix, up
to a query or fragment (the whole string when there is no scheme).  For the
`file:///x` URIs used in the examples this agrees with the vscode `Uri`
class. -/
def uriPathOf (uristring : String) : String :=
  match dropScheme uristring.data with
  | some rest => String.mk (rest.takeWhile (fun c => c != '?' && c != '#'))
  | none => uristring

/-- JavaScript `.replace(/\r\n/g, '\n')` on the underlying characters. -/
def normNewlineChars : List Char → List Char
  | '\r' :: '\n' :: rest => '\n' :: normNewlineChars rest
  | c :: rest => c :: normNewlineChars rest
  | [] => []

/-- Newline normalization of the code sent to the kernel's `dumpCell`
request: `code.replace(/\r\n/g, '\n')`. -/
def normNewlines (s : String) : String :=
  String.mk (normNewlineChars s.data)

/-- JavaScript `a || b` on an optional string `a` (both `undefined` and the
empty string are falsy). -/
def jsOrStr (a : Option String) (b : String) : String :=
  match a with
  | some s => if s = "" then b else s
  | none => b

/-- JavaScript falsiness of an optional string (`!source.path`): `undefined`
and the empty string are falsy. -/
def jsFalsyPath : Option String → Bool
  | none => true
  | some s => s == ""

/-! ## Data model

`InteractiveCellMetadata` carries the fields of the interactive-window cell
metadata that `dumpCell` in the interactive-window `KernelDebugAdapter`
reads; `CellDumpRecord` is one entry of its
`cellToDebugFileSortedInReverseOrderByLineNumber` array. -/

structure GeneratedCode where
  code : String
  hasCellMarker : Bool
  firstNonBlankLineIndex : Int
  lineOffsetRelativeToIndexOfFirstLineInCell : Int
deriving DecidableEq

structure InteractiveInfo where
  uristring : String
  lineIndex : Int
deriving DecidableEq

structure InteractiveCellMetadata where
  interactive : InteractiveInfo
  generatedCode : Option GeneratedCode
deriving DecidableEq

/-- One record of `cellToDebugFileSortedInReverseOrderByLineNumber`.  The
`interactiveWindow : Uri` field of the source is represented by the pair of
its `.path` (`interactiveWindowPath`) and its `.toString()`
(`interactiveWindowStr`); `Uri.parse` of a canonical URI string round-trips
through `toString`, so `interactiveWindowStr` is the parsed string itself. -/
structure CellDumpRecord where
  debugFilePath : String
  interactiveWindowPath : String
  interactiveWindowStr : String
  metadata : InteractiveCellMetadata
  lineOffset : Int
deriving DecidableEq

/-- The record pushed by `dumpCell` for metadata `md` when the kernel's
`dumpCell` request answered with `sourcePath`:
`debugFilePath` is the normalized source path, and `lineOffset` is
`numberOfStrippedLines + metadata.interactive.lineIndex +
(metadata.generatedCode?.lineOffsetRelativeToIndexOfFirstLineInCell || 0)`,
where the stripped-line count applies only when generated code exists and
has no cell marker. -/
def mkDumpRecord (md : InteractiveCellMetadata) (sourcePath : String) : CellDumpRecord :=
  let numberOfStrippedLines : Int :=
    match md.generatedCode with
    | some g => if ¬ g.hasCellMarker then g.firstNonBlankLineIndex else 0
    | none => 0
  { debugFilePath := normalizePath sourcePath
    interactiveWindowPath := uriPathOf md.interactive.uristring
    interactiveWindowStr := md.interactive.uristring
    metadata := md
    lineOffset :=
      numberOfStrippedLines + md.interactive.lineIndex +
        (match md.generatedCode with
         | some g => g.lineOffsetRelativeToIndexOfFirstLineInCell
         | none => 0) }

/-- Stable insertion (descending by `metadata.interactive.lineIndex`) used to
model the stable `Array.prototype.sort` with comparator
`(a, b) => b.metadata.interactive.lineIndex - a.metadata.interactive.lineIndex`. -/
def insertDesc (r : CellDumpRecord) : List CellDumpRecord → List CellDumpRecord
  | [] => [r]
  | x :: xs =>
    if r.metadata.interactive.lineIndex < x.metadata.interactive.lineIndex then
      x :: insertDesc r xs
    else r :: x :: xs

/-- Stable sort of the record array, descending by
`metadata.interactive.lineIndex` (the order the adapter keeps
`cellToDebugFileSortedInReverseOrderByLineNumber` in). -/
def sortDescByLineIndex : List CellDumpRecord → List CellDumpRecord
  | [] => []
  | x :: xs => insertDesc x (sortDescByLineIndex xs)

/-- Model of `dumpCell` of the interactive-window `KernelDebugAdapter`.  The cell at
the given index is represented by its metadata (`none` models
`getInteractiveCellMetadata` returning `undefined`, which makes the method
throw before the `try` block) and its document text; the kernel session's
`dumpCell` custom request is the oracle `kernelDump`, applied to the
newline-normalized code.  A rejection of the custom request is caught
(`traceError`) and leaves the store unchanged; on success a new record is
pushed and the array re-sorted in descending line order. -/
def dumpCell (store : List CellDumpRecord) (metadata : Option InteractiveCellMetadata)
    (cellText : String) (kernelDump : String → Except String String) :
    Except String (List CellDumpRecord) :=
  match metadata with
  | none => .error "Not an interactive window cell"
  | some md =>
    let code := normNewlines (jsOrStr (md.generatedCode.map (fun g => g.code)) cellText)
    match kernelDump code with
    | .error _ => .ok store
    | .ok sourcePath => .ok (sortDescByLineIndex (store ++ [mkDumpRecord md sourcePath]))

/-- Model of `getDumpFilesForDeletion` of the interactive-window adapter: the
`debugFilePath` of every record in the array. -/
def getDumpFilesForDeletion (store : List CellDumpRecord) : List String :=
  store.map (fun r => r.debugFilePath)

/-- Run a sequence of successful dump operations (metadata and the source
path the kernel answers with) against the interactive-window store. -/
def runDumps (start : List CellDumpRecord) :
    List (InteractiveCellMetadata × String) → List CellDumpRecord
  | [] => start
  | op :: ops =>
    match dumpCell start (some op.1) "" (fun _ => .ok op.2) with
    | .ok s' => runDumps s' ops
    | .error _ => runDumps start ops

/-! ## Notebook variant: the Map-based cell dump store -/

/-- Model of JavaScript `Map.prototype.set` on a map represented as an
association list in insertion order: an existing key keeps its position and
gets the new value, a new key is appended. -/
def mapSet (m : List (String × String)) (k v : String) : List (String × String) :=
  if m.any (fun kv => kv.1 == k) then
    m.map (fun kv => if kv.1 == k then (k, v) else kv)
  else m ++ [(k, v)]

/-- Model of `dumpCell` of the notebook `KernelDebugAdapter` acting on its
`cellToFile` map: on success of the kernel's `dumpCell` request the cell's
URI is mapped to the normalized source path (replacing any previous entry
for that URI); a rejection is caught (`traceError`) and leaves the map
unchanged. -/
def dumpCellNb (cellToFile : List (String × String)) (cellUri : String)
    (cellText : String) (kernelDump : String → Except String String) :
    List (String × String) :=
  match kernelDump (normNewlines cellText) with
  | .error _ => cellToFile
  | .ok sourcePath => mapSet cellToFile cellUri (normalizePath sourcePath)

/-- Model of `getDumpFilesForDeletion` of the notebook adapter:
`Array.from(this.cellToFile.values())`. -/
def getDumpFilesForDeletionNb (m : List (String × String)) : List String :=
  m.map (fun kv => kv.2)

/-! ## Debug Adapter Protocol locations -/

/-- Model of `DebugProtocol.Source` restricted to the fields the adapter touches. -/
structure Source where
  name : Option String
  path : Option String
deriving DecidableEq

/-- The `lines` parameter of `translateDebuggerFileToRealFile`:
`{ line?: number; endLine?: number; lines?: number[] }`. -/
structure Lines where
  line : Option Int
  endLine : Option Int
  lines : Option (List Int)
deriving DecidableEq

/-- Model of `DebugProtocol.SourceBreakpoint` restricted to its `line` field. -/
structure Breakpoint where
  line : Int
deriving DecidableEq

/-- The `location` parameter of `translateRealLocationToDebuggerLocation`:
`{ line?: number; endLine?: number; breakpoints?: { line: number }[] }`. -/
structure Location where
  line : Option Int
  endLine : Option Int
  breakpoints : Option (List Breakpoint)
deriving DecidableEq

/-! ## Coordinate translator -/

/-- Translate a kernel-reported (debugger-file) line to a real editor line:
the `+ (cell.lineOffset || 0)` update applied by
`translateDebuggerFileToRealFile` (since `lineOffset` is always a number,
`|| 0` only replaces a zero offset by zero). -/
def toReal (cell : CellDumpRecord) (l : Int) : Int := l + cell.lineOffset

/-- Translate a real editor line to a kernel (debugger-file) line: the
`- (cell.lineOffset || 0)` update applied by
`translateRealLocationToDebuggerLocation`. -/
def toKernel (cell : CellDumpRecord) (l : Int) : Int := l - cell.lineOffset

/-- The field updates of `translateDebuggerFileToRealFile` once a matching
record is found: add the offset to `line` and `endLine` when they are
numbers and to each element of the `lines` array when it is an array. -/
def applyOffsetToLines (cell : CellDumpRecord) (l : Lines) : Lines :=
  { line := l.line.map (toReal cell)
    endLine := l.endLine.map (toReal cell)
    lines := l.lines.map (fun ls => ls.map (toReal cell)) }

/-- The inverse-direction (`toKernel`) action on the same field shape as
`applyOffsetToLines`, used to state the round-trip property. -/
def stripOffsetFromLines (cell : CellDumpRecord) (l : Lines) : Lines :=
  { line := l.line.map (toKernel cell)
    endLine := l.endLine.map (toKernel cell)
    lines := l.lines.map (fun ls => ls.map (toKernel cell)) }

/-- The field updates of `translateRealLocationToDebuggerLocation` once a
matching record is found: subtract the offset from `line` and `endLine`
when they are numbers and from each breakpoint's `line`. -/
def stripOffsetFromLocation (cell : CellDumpRecord) (loc : Location) : Location :=
  { line := loc.line.map (toKernel cell)
    endLine := loc.endLine.map (toKernel cell)
    breakpoints := loc.breakpoints.map (fun bps => bps.map (fun bp => { line := toKernel cell bp.line })) }

/-- The inverse-direction (`toReal`) action on the same field shape as
`stripOffsetFromLocation`, used to state the round-trip property. -/
def applyOffsetToLocation (cell : CellDumpRecord) (loc : Location) : Location :=
  { line := loc.line.map (toReal cell)
    endLine := loc.endLine.map (toReal cell)
    breakpoints := loc.breakpoints.map (fun bps => bps.map (fun bp => { line := toReal cell bp.line })) }

/-- Model of `translateDebuggerFileToRealFile` of the interactive-window adapter.
The TypeScript mutates `source` and `lines` in place; the model returns the
updated pair.  Guard: return the inputs unchanged when `source` or a truthy
`source.path` or `lines` is missing, or when `lines` has neither a numeric
`line` nor a `lines` array; likewise when no record's `debugFilePath`
equals `source.path`.  Otherwise rewrite `source.name`/`source.path` to the
interactive-window file and add the record's offset to every line field. -/
def translateDebuggerFileToRealFile (store : List CellDumpRecord)
    (source : Option Source) (lines : Option Lines) : Option Source × Option Lines :=
  match source, lines with
  | some s, some l =>
    if jsFalsyPath s.path = true ∨ (l.line = none ∧ l.lines = none) then
      (some s, some l)
    else
      match store.find? (fun item => s.path == some item.debugFilePath) with
      | none => (some s, some l)
      | some cell =>
        (some { name := some (basename cell.interactiveWindowPath)
                path := some cell.interactiveWindowStr },
         some (applyOffsetToLines cell l))
  | s, l => (s, l)

/-- The first element of an optional breakpoints array, as accessed by the
JavaScript `location.breakpoints![0].line` (`none` models the `TypeError`
thrown when the array is missing or empty). -/
def firstBreakpointLine : Option (List Breakpoint) → Option Int
  | some (bp :: _) => some bp.line
  | _ => none

/-- Model of `const startLine = location.line || location.breakpoints![0].line`:
a missing or zero (JavaScript-falsy) `line` falls back to the first
breakpoint's line; `none` models the `TypeError` thrown when that fallback
dereferences a missing or empty breakpoints array. -/
def startLineJs (loc : Location) : Option Int :=
  match loc.line with
  | some n => if n = 0 then firstBreakpointLine loc.breakpoints else some n
  | none => firstBreakpointLine loc.breakpoints

/-- The linear scan shared by `translateRealLocationToDebuggerLocation` and
the breakpoint partitioner: on the array kept in descending
`metadata.interactive.lineIndex` order, find the first record whose cell
starts before the given real-document line
(`item.metadata.interactive.lineIndex + 1 <= line`), i.e. the
nearest-preceding record by sort key. -/
def findNearestPrecedingBySortKey (store : List CellDumpRecord) (line : Int) :
    Option CellDumpRecord :=
  store.find? (fun item => decide (item.metadata.interactive.lineIndex + 1 ≤ line))

/-- Model of `translateRealLocationToDebuggerLocation` of the interactive-window
adapter.  Guard: return the inputs unchanged when `source` or a truthy
`source.path` or `location` is missing, or when `location` has neither a
numeric `line` nor a `breakpoints` array.  Past the guard the JavaScript
computes `startLine` (which can throw, modelled by `.error`), looks up the
nearest preceding record, and passes through unchanged when there is none
or its interactive-window path differs from `source.path`; otherwise it
rewrites `source.path` to the record's `debugFilePath` and subtracts the
offset from every line field. -/
def translateRealLocationToDebuggerLocation (store : List CellDumpRecord)
    (source : Option Source) (location : Option Location) :
    Except String (Option Source × Option Location) :=
  match source, location with
  | some s, some loc =>
    if jsFalsyPath s.path = true ∨ (loc.line = none ∧ loc.breakpoints = none) then
      .ok (some s, some loc)
    else
      match startLineJs loc with
      | none => .error "TypeError"
      | some startLine =>
        match findNearestPrecedingBySortKey store startLine with
        | none => .ok (some s, some loc)
        | some cell =>
          if s.path ≠ some cell.interactiveWindowPath then .ok (some s, some loc)
          else
            .ok (some { s with path := some cell.debugFilePath },
                 some (stripOffsetFromLocation cell loc))
  | s, loc => .ok (s, loc)

/-! ## Breakpoint partitioner and request dispatch

`sendRequestToJupyterSession2` is modelled for requests of the
`setBreakpoints` shape (a command, a source path, and a breakpoints array);
that is the only shape the overridden method inspects, all other requests
go to the base-class pass-through unchanged. -/

/-- A request of the `SetBreakpointsArguments` shape. -/
structure SbRequest where
  command : String
  sourcePath : String
  breakpoints : List Breakpoint
deriving DecidableEq

/-- One entry of a `SetBreakpointsResponse`'s `body.breakpoints`; `line` and
`sourcePath` are optional as in the protocol, `verified` is the DAP flag. -/
structure RespBp where
  line : Option Int
  verified : Bool
  sourcePath : Option String
deriving DecidableEq

/-- The body of a `SetBreakpointsResponse`. -/
structure SbResponse where
  breakpoints : List RespBp
deriving DecidableEq

/-- One entry of a `setPydevdSourceMap` custom request's `pydevdSourceMaps`. -/
structure PydevdSourceMapEntry where
  endLine : Int
  line : Int
  runtimeLine : Int
  runtimeSourcePath : String
deriving DecidableEq

/-- An `ISourceMapRequest`: the body of the `setPydevdSourceMap` custom
request issued before forwarding a `setBreakpoints` request. -/
structure SourceMapRequest where
  sourcePath : String
  pydevdSourceMaps : List PydevdSourceMapEntry
deriving DecidableEq

/-- The synthesized response for a breakpoint owned by no record:
`{ body: { breakpoints: [{ ...bp, verified: true }] } }`. -/
def fakeResponse (bp : Breakpoint) : SbResponse :=
  { breakpoints := [{ line := some bp.line, verified := true, sourcePath := none }] }

/-- An entry of the partitioner's `setBreakpointsRequests` array before the
sub-requests are awaited: either a group of breakpoints to be sent through
the base-class channel (`Sum.inl`) or an already-resolved synthesized
response (`Sum.inr`). -/
abbrev Pending := List Breakpoint ⊕ SbResponse

/-- Model of `sendIfNeeded`: push one pending sub-request holding the current group,
unless the group is empty. -/
def flushGroup (curBps : List Breakpoint) : List Pending :=
  if curBps.isEmpty then [] else [Sum.inl curBps]

/-- The partitioner's `for` loop over the incoming request's breakpoints.
For each breakpoint the owning record is the nearest preceding one by sort
key; a change of its `lineOffset` (compared with `currentCellLine`,
initially `undefined`) flushes the current group and starts a new one, an
equal offset extends the current group, and a breakpoint owned by no record
contributes an already-resolved synthesized `verified: true` response in
encounter order.  The trailing `sendIfNeeded()` flushes the last group. -/
def partitionLoop (store : List CellDumpRecord) :
    List Breakpoint → Option Int → List Breakpoint → List Pending
  | [], _, curBps => flushGroup curBps
  | bp :: rest, currentCellLine, curBps =>
    match findNearestPrecedingBySortKey store bp.line with
    | some cellForBp =>
      if some cellForBp.lineOffset ≠ currentCellLine then
        flushGroup curBps ++ partitionLoop store rest (some cellForBp.lineOffset) [bp]
      else
        partitionLoop store rest currentCellLine (curBps ++ [bp])
    | none =>
      Sum.inr (fakeResponse bp) :: partitionLoop store rest currentCellLine curBps

/-- The pass-back translation applied to one response breakpoint: the
server-to-client direction runs `translateDebuggerFileToRealFile` over the
breakpoint's own `source`/`line` fields (a breakpoint without a `source` is
left unchanged by that function's guard). -/
def untranslateRespBp (store : List CellDumpRecord) (b : RespBp) : RespBp :=
  let res := translateDebuggerFileToRealFile store
    (b.sourcePath.map (fun p => { name := none, path := some p }))
    (some { line := b.line, endLine := none, lines := none })
  { line := res.2.bind (fun l => l.line)
    verified := b.verified
    sourcePath := res.1.bind (fun s => s.path) }

/-- Modelled from the spec: `KernelDebugAdapterBase.sendRequestToJupyterSession2`
(the base class is not under `src/`).  Per §4.4 of the spec, forwarding a
request with a `source` field translates its path and line fields to
debugger coordinates through the adapter's
`translateRealLocationToDebuggerLocation` hook, sends the translated
request to the kernel session (the `kernel` oracle), and untranslates the
response's location fields on the way back.  The result is the forwarded
(translated) request together with the response handed back to the caller. -/
def superSendRequestToJupyterSession (store : List CellDumpRecord)
    (kernel : SbRequest → SbResponse) (req : SbRequest) :
    Except String (SbRequest × SbResponse) :=
  match translateRealLocationToDebuggerLocation store
      (some { name := none, path := some req.sourcePath })
      (some { line := none, endLine := none, breakpoints := some req.breakpoints }) with
  | .error e => .error e
  | .ok (src', loc') =>
    let fwd : SbRequest :=
      { command := req.command
        sourcePath := (src'.bind (fun s => s.path)).getD req.sourcePath
        breakpoints := (loc'.bind (fun l => l.breakpoints)).getD req.breakpoints }
    let resp := kernel fwd
    .ok (fwd, { breakpoints := resp.breakpoints.map (untranslateRespBp store) })

/-- Await the partitioner's pending array (`Promise.all`): each group is
sent through the base-class channel as a clone of the incoming request with
only `arguments.breakpoints` replaced, each synthesized response resolves
immediately.  Returns the forwarded sub-requests and the responses, both
in construction order. -/
def resolvePending (store : List CellDumpRecord) (kernel : SbRequest → SbResponse)
    (template : SbRequest) :
    List Pending → Except String (List SbRequest × List SbResponse)
  | [] => .ok ([], [])
  | Sum.inl groupBps :: rest =>
    match superSendRequestToJupyterSession store kernel { template with breakpoints := groupBps } with
    | .error e => .error e
    | .ok (fwd, resp) =>
      match resolvePending store kernel template rest with
      | .error e => .error e
      | .ok (fs, rs) => .ok (fwd :: fs, resp :: rs)
  | Sum.inr resp :: rest =>
    match resolvePending store kernel template rest with
    | .error e => .error e
    | .ok (fs, rs) => .ok (fs, resp :: rs)

/-- The merge step: `JSON.parse(JSON.stringify(responses[0]))` (a
`SyntaxError` when there is no first response, since
`JSON.stringify(undefined)` is `undefined`), then the remaining responses'
`breakpoints` arrays concatenated onto it in order. -/
def mergeResponses : List SbResponse → Except String SbResponse
  | [] => .error "SyntaxError"
  | r0 :: rest =>
    .ok { breakpoints := rest.foldl (fun acc r => acc ++ r.breakpoints) r0.breakpoints }

/-- The visible outcome of one `sendRequestToJupyterSession2` call: the
`setPydevdSourceMap` custom requests issued, the sub-requests forwarded to
the kernel session (translated), and the response returned to the caller. -/
structure SendOutcome where
  sourceMapRequests : List SourceMapRequest
  forwarded : List SbRequest
  response : SbResponse
deriving DecidableEq

/-- Model of `sendRequestToJupyterSession2` of the interactive-window adapter.

* `setBreakpoints`: reads `cellToDebugFileSortedInReverseOrderByLineNumber[0].debugFilePath`
  (a `TypeError` on an empty store), issues a `setPydevdSourceMap` custom
  request with the hardcoded map entry `{endLine: 3, line: 1, runtimeLine: 2}`
  pointing at `'/private' + runtimeSource`, and forwards the whole request
  through the base-class channel.
* `2setBreakpoints`: when the first record's interactive-window path differs
  from the request's source path, plain base-class pass-through; otherwise
  the partitioner groups the breakpoints, awaits the sub-requests, and
  merges the responses.
* anything else: base-class pass-through. -/
def sendRequestToJupyterSession2 (store : List CellDumpRecord)
    (kernel : SbRequest → SbResponse) (req : SbRequest) : Except String SendOutcome :=
  if req.command = "setBreakpoints" then
    match store with
    | [] => .error "TypeError"
    | first :: _ =>
      let smr : SourceMapRequest :=
        { sourcePath := req.sourcePath
          pydevdSourceMaps := [{ endLine := 3, line := 1, runtimeLine := 2,
                                 runtimeSourcePath := "/private" ++ first.debugFilePath }] }
      match superSendRequestToJupyterSession store kernel req with
      | .error e => .error e
      | .ok (fwd, resp) =>
        .ok { sourceMapRequests := [smr], forwarded := [fwd], response := resp }
  else if req.command = "2setBreakpoints" then
    if (store.head?.map (fun r => r.interactiveWindowPath)) ≠ some req.sourcePath then
      match superSendRequestToJupyterSession store kernel req with
      | .error e => .error e
      | .ok (fwd, resp) =>
        .ok { sourceMapRequests := [], forwarded := [fwd], response := resp }
    else
      match resolvePending store kernel req (partitionLoop store req.breakpoints none []) with
      | .error e => .error e
      | .ok (fwds, resps) =>
        match mergeResponses resps with
        | .error e => .error e
        | .ok merged =>
          .ok { sourceMapRequests := [], forwarded := fwds, response := merged }
  else
    match superSendRequestToJupyterSession store kernel req with
    | .error e => .error e
    | .ok (fwd, resp) =>
      .ok { sourceMapRequests := [], forwarded := [fwd], response := resp }

/-- The synthesized responses among the pending entries, in order. -/
def pendingFakes (ps : List Pending) : List SbResponse :=
  ps.filterMap (fun p => match p with | Sum.inr r => some r | Sum.inl _ => none)

/-- The breakpoint groups among the pending entries, in order. -/
def pendingGroups (ps : List Pending) : List (List Breakpoint) :=
  ps.filterMap (fun p => match p with | Sum.inl g => some g | Sum.inr _ => none)

/-- A kernel oracle for the concrete scenarios: answers a `setBreakpoints`
request by verifying every requested breakpoint at its requested line. -/
def echoKernel (req : SbRequest) : SbResponse :=
  { breakpoints := req.breakpoints.map (fun bp =>
      { line := some bp.line, verified := true, sourcePath := none }) }

/-! ## Concrete fixtures for the scenario properties -/

/-- Metadata of cell A of the partition scenario: starts at document line
index 0, code generation contributes offset 10, so its record's
`lineOffset` is 10. -/
def mdA : InteractiveCellMetadata :=
  { interactive := { uristring := "file:///iw/doc.py", lineIndex := 0 }
    generatedCode := some { code := "", hasCellMarker := true, firstNonBlankLineIndex := 0,
                            lineOffsetRelativeToIndexOfFirstLineInCell := 10 } }

/-- Metadata of cell B of the partition scenario: starts at document line
index 18, code generation contributes offset 82, so its record's
`lineOffset` is 100. -/
def mdB : InteractiveCellMetadata :=
  { interactive := { uristring := "file:///iw/doc.py", lineIndex := 18 }
    generatedCode := some { code := "", hasCellMarker := true, firstNonBlankLineIndex := 0,
                            lineOffsetRelativeToIndexOfFirstLineInCell := 82 } }

/-- Record A: dumped to `/tmp/a.py`, `lineOffset = 10`, owns lines 1-18. -/
def recA : CellDumpRecord := mkDumpRecord mdA "/tmp/a.py"

/-- Record B: dumped to `/tmp/b.py`, `lineOffset = 100`, owns lines ≥ 19. -/
def recB : CellDumpRecord := mkDumpRecord mdB "/tmp/b.py"

/-- The partition scenario's store, descending by starting line index. -/
def exStore : List CellDumpRecord := [recB, recA]

/-- A store record with a given sort key, offset and debug file path, for
the nearest-preceding-lookup scenario. -/
def mkPlainRecord (idx offset : Int) (dbg : String) : CellDumpRecord :=
  { debugFilePath := dbg
    interactiveWindowPath := "/iw/doc.py"
    interactiveWindowStr := "file:///iw/doc.py"
    metadata := { interactive := { uristring := "file:///iw/doc.py", lineIndex := idx }
                  generatedCode := none }
    lineOffset := offset }

/-- Metadata of the re-dumped cell in the duplication scenario. -/
def md0 : InteractiveCellMetadata :=
  { interactive := { uristring := "file:///iw/doc.py", lineIndex := 0 }
    generatedCode := none }

/-- The incoming multi-cell breakpoint request of the partition scenario,
addressed to the partitioner's command. -/
def req2set : SbRequest :=
  { command := "2setBreakpoints", sourcePath := "/iw/doc.py"
    breakpoints := [⟨2⟩, ⟨3⟩, ⟨20⟩, ⟨21⟩] }

/-- The same incoming request with the standard `setBreakpoints` command. -/
def reqSet : SbRequest :=
  { command := "setBreakpoints", sourcePath := "/iw/doc.py"
    breakpoints := [⟨2⟩, ⟨3⟩, ⟨20⟩, ⟨21⟩] }

/-! ## Helper lemmas -/

theorem toReal_toKernel (cell : CellDumpRecord) (n : Int) :
    toReal cell (toKernel cell n) = n := by
  simp [toReal, toKernel]

theorem toKernel_toReal (cell : CellDumpRecord) (n : Int) :
    toKernel cell (toReal cell n) = n := by
  simp [toReal, toKernel]

theorem map_toReal_toKernel (cell : CellDumpRecord) (xs : List Int) :
    (xs.map (toKernel cell)).map (toReal cell) = xs := by
  induction xs with
  | nil => rfl
  | cons x t ih => simp only [List.map_cons, toReal_toKernel, ih]

theorem map_toKernel_toReal (cell : CellDumpRecord) (xs : List Int) :
    (xs.map (toReal cell)).map (toKernel cell) = xs := by
  induction xs with
  | nil => rfl
  | cons x t ih => simp only [List.map_cons, toKernel_toReal, ih]

theorem omap_toReal_toKernel (cell : CellDumpRecord) (x : Option Int) :
    (x.map (toKernel cell)).map (toReal cell) = x := by
  cases x <;> simp [toReal_toKernel]

theorem omap_toKernel_toReal (cell : CellDumpRecord) (x : Option Int) :
    (x.map (toReal cell)).map (toKernel cell) = x := by
  cases x <;> simp [toKernel_toReal]

theorem olmap_toReal_toKernel (cell : CellDumpRecord) (c : Option (List Int)) :
    ((c.map (fun ls => ls.map (toKernel cell))).map (fun ls => ls.map (toReal cell))) = c := by
  cases c with
  | none => rfl
  | some v => exact congrArg some (map_toReal_toKernel cell v)

theorem olmap_toKernel_toReal (cell : CellDumpRecord) (c : Option (List Int)) :
    ((c.map (fun ls => ls.map (toReal cell))).map (fun ls => ls.map (toKernel cell))) = c := by
  cases c with
  | none => rfl
  | some v => exact congrArg some (map_toKernel_toReal cell v)

theorem bmap_toReal_toKernel (cell : CellDumpRecord) (bps : List Breakpoint) :
    ((bps.map (fun bp => ({ line := toKernel cell bp.line } : Breakpoint))).map
      (fun bp => ({ line := toReal cell bp.line } : Breakpoint))) = bps := by
  induction bps with
  | nil => rfl
  | cons b t ih => simp only [List.map_cons, toReal_toKernel, ih]

theorem bmap_toKernel_toReal (cell : CellDumpRecord) (bps : List Breakpoint) :
    ((bps.map (fun bp => ({ line := toReal cell bp.line } : Breakpoint))).map
      (fun bp => ({ line := toKernel cell bp.line } : Breakpoint))) = bps := by
  induction bps with
  | nil => rfl
  | cons b t ih => simp only [List.map_cons, toKernel_toReal, ih]

theorem obmap_toReal_toKernel (cell : CellDumpRecord) (f : Option (List Breakpoint)) :
    ((f.map (fun bps => bps.map (fun bp => ({ line := toKernel cell bp.line } : Breakpoint)))).map
      (fun bps => bps.map (fun bp => ({ line := toReal cell bp.line } : Breakpoint)))) = f := by
  cases f with
  | none => rfl
  | some v => exact congrArg some (bmap_toReal_toKernel cell v)

theorem obmap_toKernel_toReal (cell : CellDumpRecord) (f : Option (List Breakpoint)) :
    ((f.map (fun bps => bps.map (fun bp => ({ line := toReal cell bp.line } : Breakpoint)))).map
      (fun bps => bps.map (fun bp => ({ line := toKernel cell bp.line } : Breakpoint)))) = f := by
  cases f with
  | none => rfl
  | some v => exact congrArg some (bmap_toKernel_toReal cell v)

/-- C1: for every dump record with offset `o` and every integer line, the two
translation directions are mutually inverse (`toReal (toKernel line) = line`
and `toKernel (toReal line) = line`), and the round-trip holds field-wise on
both location shapes the adapter updates: the single `line` field, the
`endLine` field, each element of a `lines` array (the shape rewritten by
`translateDebuggerFileToRealFile`) and each breakpoint's `line` field (the
shape rewritten by `translateRealLocationToDebuggerLocation`). -/
theorem translation_roundtrip (cell : CellDumpRecord) (n : Int)
    (l : Lines) (loc : Location) :
    toReal cell (toKernel cell n) = n ∧
    toKernel cell (toReal cell n) = n ∧
    applyOffsetToLines cell (stripOffsetFromLines cell l) = l ∧
    stripOffsetFromLines cell (applyOffsetToLines cell l) = l ∧
    applyOffsetToLocation cell (stripOffsetFromLocation cell loc) = loc ∧
    stripOffsetFromLocation cell (applyOffsetToLocation cell loc) = loc := by
  obtain ⟨a, b, c⟩ := l
  obtain ⟨d, e, f⟩ := loc
  refine ⟨toReal_toKernel cell n, toKernel_toReal cell n, ?_, ?_, ?_, ?_⟩ <;>
    simp only [applyOffsetToLines, stripOffsetFromLines, applyOffsetToLocation,
      stripOffsetFromLocation, omap_toReal_toKernel, omap_toKernel_toReal,
      olmap_toReal_toKernel, olmap_toKernel_toReal,
      obmap_toReal_toKernel, obmap_toKernel_toReal]

/-- C5: with records of sort keys `[50, 20, 5]` held in descending order,
the nearest-preceding lookup at real-document line 30 finds the record with
sort key 20, and at line 3 finds nothing. -/
theorem findNearestPreceding_example :
    findNearestPrecedingBySortKey
        [mkPlainRecord 50 1 "/t/50.py", mkPlainRecord 20 2 "/t/20.py", mkPlainRecord 5 3 "/t/5.py"]
        30 = some (mkPlainRecord 20 2 "/t/20.py") ∧
    findNearestPrecedingBySortKey
        [mkPlainRecord 50 1 "/t/50.py", mkPlainRecord 20 2 "/t/20.py", mkPlainRecord 5 3 "/t/5.py"]
        3 = none := by
  decide

/-- C2 counterexample: an incoming request with the standard `setBreakpoints`
command and breakpoints at lines `[2, 3, 20, 21]` against the two-record
store is NOT partitioned: the adapter issues the `setPydevdSourceMap` custom
request and then forwards a single sub-request, whose source is rewritten to
record A's `debugFilePath` and ALL of whose breakpoint lines are translated
with A's offset (`[-8, -7, 10, 11]`), rather than two per-record
sub-requests; only the disabled `2setBreakpoints` command reaches the
partitioner. -/
theorem setBreakpoints_not_partitioned :
    (sendRequestToJupyterSession2 exStore echoKernel reqSet).map
        (fun o => o.forwarded.length) = .ok 1 ∧
    sendRequestToJupyterSession2 exStore echoKernel reqSet = .ok
      { sourceMapRequests := [{ sourcePath := "/iw/doc.py"
                                pydevdSourceMaps := [{ endLine := 3, line := 1, runtimeLine := 2,
                                                       runtimeSourcePath := "/private/tmp/b.py" }] }]
        forwarded := [{ command := "setBreakpoints", sourcePath := "/tmp/a.py"
                        breakpoints := [⟨-8⟩, ⟨-7⟩, ⟨10⟩, ⟨11⟩] }]
        response := { breakpoints :=
          [{ line := some (-8), verified := true, sourcePath := none },
           { line := some (-7), verified := true, sourcePath := none },
           { line := some 10, verified := true, sourcePath := none },
           { line := some 11, verified := true, sourcePath := none }] } } :=
  ⟨rfl, rfl⟩

/-- C2 (amended): the partition behaviour holds for the command the code
actually binds the partitioner to, `2setBreakpoints` (not the standard
`setBreakpoints`, see the counterexample): for breakpoints at lines
`[2, 3, 20, 21]` where lines 2 and 3 are owned by record A (`lineOffset` 10)
and lines 20 and 21 by record B (`lineOffset` 100), exactly two sub-requests
are issued — one to A's `debugFilePath` with lines `[-8, -7]`, one to B's
with `[-80, -79]`, grouped by encounter order of `lineOffset` changes — and
the merged response preserves the two-group order with total length 4. -/
theorem partitioner_two_subrequests :
    sendRequestToJupyterSession2 exStore echoKernel req2set = .ok
      { sourceMapRequests := []
        forwarded := [{ command := "2setBreakpoints", sourcePath := "/tmp/a.py"
                        breakpoints := [⟨-8⟩, ⟨-7⟩] },
                      { command := "2setBreakpoints", sourcePath := "/tmp/b.py"
                        breakpoints := [⟨-80⟩, ⟨-79⟩] }]
        response := { breakpoints :=
          [{ line := some (-8), verified := true, sourcePath := none },
           { line := some (-7), verified := true, sourcePath := none },
           { line := some (-80), verified := true, sourcePath := none },
           { line := some (-79), verified := true, sourcePath := none }] } } ∧
    (sendRequestToJupyterSession2 exStore echoKernel req2set).map
        (fun o => o.forwarded.length) = .ok 2 ∧
    (sendRequestToJupyterSession2 exStore echoKernel req2set).map
        (fun o => o.response.breakpoints.length) = .ok 4 :=
  ⟨rfl, rfl, rfl⟩

/-- C9: forwarding a `setBreakpoints` request unconditionally reads
`cellToDebugFileSortedInReverseOrderByLineNumber[0].debugFilePath`, so with
an empty dump-record store the operation throws a `TypeError` instead of
falling back to an unmodified pass-through. -/
theorem setBreakpoints_requires_nonempty_store (kernel : SbRequest → SbResponse)
    (req : SbRequest) (h : req.command = "setBreakpoints") :
    sendRequestToJupyterSession2 [] kernel req = .error "TypeError" := by
  simp [sendRequestToJupyterSession2, h]

theorem setBreakpoints_requires_nonempty_store_witness :
    reqSet.command = "setBreakpoints" ∧
    sendRequestToJupyterSession2 [] echoKernel reqSet = .error "TypeError" :=
  ⟨rfl, setBreakpoints_requires_nonempty_store echoKernel reqSet rfl⟩

/-- C10: the merge step of the partitioner clones `responses[0]`, so an
incoming partitioned request whose breakpoints array is empty (no
sub-request and no synthesized entry is created) fails with a `SyntaxError`
(`JSON.parse` of `undefined`) instead of returning a successful response
with an empty breakpoints list. -/
theorem empty_breakpoints_merge_fails (first : CellDumpRecord)
    (rest : List CellDumpRecord) (kernel : SbRequest → SbResponse) :
    sendRequestToJupyterSession2 (first :: rest) kernel
      { command := "2setBreakpoints", sourcePath := first.interactiveWindowPath
        breakpoints := [] } = .error "SyntaxError" := by
  simp [sendRequestToJupyterSession2, partitionLoop, flushGroup, resolvePending,
    mergeResponses]

theorem forward_passthrough_of_unmatched (store : List CellDumpRecord)
    (s : Source) (l : Lines) (h : ∀ r ∈ store, s.path ≠ some r.debugFilePath) :
    translateDebuggerFileToRealFile store (some s) (some l) = (some s, some l) := by
  have hf : store.find? (fun item => s.path == some item.debugFilePath) = none := by
    rw [List.find?_eq_none]
    intro r hr
    simpa using h r hr
  simp only [translateDebuggerFileToRealFile, hf]
  split <;> rfl

theorem forward_passthrough_of_no_fields (store : List CellDumpRecord)
    (s : Source) (l : Lines) (h : l.line = none ∧ l.lines = none) :
    translateDebuggerFileToRealFile store (some s) (some l) = (some s, some l) := by
  simp only [translateDebuggerFileToRealFile]
  rw [if_pos (Or.inr h)]

theorem reverse_passthrough_of_unmatched (store : List CellDumpRecord)
    (s : Source) (loc : Location) (hstart : startLineJs loc ≠ none)
    (h : ∀ r ∈ store, s.path ≠ some r.interactiveWindowPath) :
    translateRealLocationToDebuggerLocation store (some s) (some loc) =
      .ok (some s, some loc) := by
  simp only [translateRealLocationToDebuggerLocation]
  by_cases hg : jsFalsyPath s.path = true ∨ (loc.line = none ∧ loc.breakpoints = none)
  · rw [if_pos hg]
  · rw [if_neg hg]
    obtain ⟨n, hn⟩ := Option.ne_none_iff_exists'.mp hstart
    rw [hn]
    cases hfind : findNearestPrecedingBySortKey store n with
    | none => simp only [hfind]
    | some cell =>
      simp only [hfind]
      have hcell : cell ∈ store :=
        List.mem_of_find?_eq_some (by simpa [findNearestPrecedingBySortKey] using hfind)
      rw [if_pos (h cell hcell)]

theorem reverse_passthrough_of_no_fields (store : List CellDumpRecord)
    (s : Source) (loc : Location) (h : loc.line = none ∧ loc.breakpoints = none) :
    translateRealLocationToDebuggerLocation store (some s) (some loc) =
      .ok (some s, some loc) := by
  simp only [translateRealLocationToDebuggerLocation]
  rw [if_pos (Or.inr h)]

/-- C3 (amended): a message whose `source.path` matches no stored record, or
which carries no recognizable location fields, passes through both
translation operations unchanged — except that
`translateRealLocationToDebuggerLocation` evaluates
`location.line || location.breakpoints![0].line` before any matching, so a
location passing its guard whose `startLine` computation dereferences a
missing or empty breakpoints array (`line` 0 or absent) throws a `TypeError`
instead of passing through (see the counterexample); the hypothesis
`startLineJs loc ≠ none` excludes exactly those locations. -/
theorem translate_unmatched_passthrough (store : List CellDumpRecord)
    (s : Source) (l : Lines) (loc : Location) :
    ((∀ r ∈ store, s.path ≠ some r.debugFilePath) →
      translateDebuggerFileToRealFile store (some s) (some l) = (some s, some l)) ∧
    (l.line = none ∧ l.lines = none →
      translateDebuggerFileToRealFile store (some s) (some l) = (some s, some l)) ∧
    ((∀ r ∈ store, s.path ≠ some r.interactiveWindowPath) → startLineJs loc ≠ none →
      translateRealLocationToDebuggerLocation store (some s) (some loc) =
        .ok (some s, some loc)) ∧
    (loc.line = none ∧ loc.breakpoints = none →
      translateRealLocationToDebuggerLocation store (some s) (some loc) =
        .ok (some s, some loc)) :=
  ⟨forward_passthrough_of_unmatched store s l,
   forward_passthrough_of_no_fields store s l,
   fun h hstart => reverse_passthrough_of_unmatched store s loc hstart h,
   reverse_passthrough_of_no_fields store s loc⟩

theorem translate_unmatched_passthrough_witness :
    translateDebuggerFileToRealFile [recA] (some { name := none, path := some "/other.py" })
        (some { line := some 5, endLine := none, lines := none })
      = (some { name := none, path := some "/other.py" },
         some { line := some 5, endLine := none, lines := none }) ∧
    translateRealLocationToDebuggerLocation [recA]
        (some { name := none, path := some "/other.py" })
        (some { line := some 5, endLine := none, breakpoints := none })
      = .ok (some { name := none, path := some "/other.py" },
             some { line := some 5, endLine := none, breakpoints := none }) :=
  ⟨(translate_unmatched_passthrough [recA]
      { name := none, path := some "/other.py" }
      { line := some 5, endLine := none, lines := none }
      { line := some 5, endLine := none, breakpoints := none }).1 (by decide),
   (translate_unmatched_passthrough [recA]
      { name := none, path := some "/other.py" }
      { line := some 5, endLine := none, lines := none }
      { line := some 5, endLine := none, breakpoints := none }).2.2.1
      (by decide) (by decide)⟩

/-- C3 counterexample: a message whose `source.path` (`/f.py`) matches no
record (the store is empty) but whose location carries `line: 0` and no
breakpoints array makes `translateRealLocationToDebuggerLocation` throw a
`TypeError` — the JavaScript falls back to `location.breakpoints![0].line` —
instead of returning the message unchanged. -/
theorem translateReal_zero_line_throws :
    translateRealLocationToDebuggerLocation []
        (some { name := none, path := some "/f.py" })
        (some { line := some 0, endLine := none, breakpoints := none })
      = .error "TypeError" ∧
    translateRealLocationToDebuggerLocation []
        (some { name := none, path := some "/f.py" })
        (some { line := some 0, endLine := none, breakpoints := none })
      ≠ .ok (some { name := none, path := some "/f.py" },
             some { line := some 0, endLine := none, breakpoints := none }) := by
  have h1 : translateRealLocationToDebuggerLocation []
      (some { name := none, path := some "/f.py" })
      (some { line := some 0, endLine := none, breakpoints := none })
      = .error "TypeError" := rfl
  refine ⟨h1, ?_⟩
  rw [h1]
  simp

/-- C8: when the kernel's `dumpCell` custom request rejects, the operation
recovers locally: `dumpCell` returns normally (the error is caught and
logged, nothing propagates to the caller), the store is unchanged — no
record is added — and a later translation for that never-recorded cell
passes through as a no-op (fail-open), so the failure never surfaces. -/
theorem dumpCell_failure_recovery (store : List CellDumpRecord)
    (md : InteractiveCellMetadata) (cellText errMsg : String)
    (s : Source) (l : Lines) :
    dumpCell store (some md) cellText (fun _ => .error errMsg) = .ok store ∧
    ((∀ r ∈ store, s.path ≠ some r.debugFilePath) →
      translateDebuggerFileToRealFile store (some s) (some l) = (some s, some l)) :=
  ⟨rfl, forward_passthrough_of_unmatched store s l⟩

theorem dumpCell_failure_recovery_witness :
    dumpCell [recA] (some md0) "x" (fun _ => .error "boom") = .ok [recA] ∧
    translateDebuggerFileToRealFile [recA]
        (some { name := none, path := some "/nowhere.py" })
        (some { line := some 1, endLine := none, lines := none })
      = (some { name := none, path := some "/nowhere.py" },
         some { line := some 1, endLine := none, lines := none }) :=
  ⟨(dumpCell_failure_recovery [recA] md0 "x" "boom"
      { name := none, path := some "/nowhere.py" }
      { line := some 1, endLine := none, lines := none }).1,
   (dumpCell_failure_recovery [recA] md0 "x" "boom"
      { name := none, path := some "/nowhere.py" }
      { line := some 1, endLine := none, lines := none }).2 (by decide)⟩

/-! ## Store lemmas for the duplication and cleanup properties -/

theorem insertDesc_length (r : CellDumpRecord) (l : List CellDumpRecord) :
    (insertDesc r l).length = l.length + 1 := by
  induction l with
  | nil => rfl
  | cons x xs ih => simp only [insertDesc]; split <;> simp [ih]

theorem mem_insertDesc {a r : CellDumpRecord} {l : List CellDumpRecord} :
    a ∈ insertDesc r l ↔ a = r ∨ a ∈ l := by
  induction l with
  | nil => simp [insertDesc]
  | cons x xs ih =>
    simp only [insertDesc]
    split
    · simp only [List.mem_cons, ih]
      tauto
    · simp only [List.mem_cons]

theorem sortDesc_length (l : List CellDumpRecord) :
    (sortDescByLineIndex l).length = l.length := by
  induction l with
  | nil => rfl
  | cons x xs ih => simp [sortDescByLineIndex, insertDesc_length, ih]

theorem mem_sortDesc {a : CellDumpRecord} {l : List CellDumpRecord} :
    a ∈ sortDescByLineIndex l ↔ a ∈ l := by
  induction l with
  | nil => simp [sortDescByLineIndex]
  | cons x xs ih => simp [sortDescByLineIndex, mem_insertDesc, ih]

theorem mapSet_mapSet (m : List (String × String)) (k v1 v2 : String) :
    mapSet (mapSet m k v1) k v2 = mapSet m k v2 := by
  by_cases ht : m.any (fun kv => kv.1 == k) = true
  · have h1 : mapSet m k v1 = m.map (fun kv => if kv.1 == k then (k, v1) else kv) := by
      unfold mapSet
      rw [if_pos ht]
    have hcomp : ((fun (kv : String × String) => kv.1 == k) ∘
        (fun kv => if kv.1 == k then (k, v1) else kv))
        = (fun (kv : String × String) => kv.1 == k) := by
      funext kv
      by_cases hk : kv.1 = k <;> simp [hk]
    have h2 : ((m.map (fun kv => if kv.1 == k then (k, v1) else kv)).any
        (fun kv => kv.1 == k)) = true := by
      rw [List.any_map, hcomp]
      exact ht
    have h3 : mapSet (m.map fun kv => if kv.1 == k then (k, v1) else kv) k v2
        = (m.map fun kv => if kv.1 == k then (k, v1) else kv).map
            (fun kv => if kv.1 == k then (k, v2) else kv) := by
      unfold mapSet
      rw [if_pos h2]
    have h4 : mapSet m k v2 = m.map (fun kv => if kv.1 == k then (k, v2) else kv) := by
      unfold mapSet
      rw [if_pos ht]
    rw [h1, h3, List.map_map, h4]
    apply List.map_congr_left
    intro kv _
    by_cases hk : kv.1 = k <;> simp [Function.comp, hk]
  · have hall : ∀ kv ∈ m, (kv.1 == k) = false := by
      intro kv hkv
      by_contra hc
      exact ht (List.any_eq_true.mpr ⟨kv, hkv, by simpa using hc⟩)
    have h1 : mapSet m k v1 = m ++ [(k, v1)] := by
      unfold mapSet
      rw [if_neg ht]
    have h2 : ((m ++ [(k, v1)]).any (fun kv => kv.1 == k)) = true := by
      simp [List.any_append]
    have h3 : mapSet (m ++ [(k, v1)]) k v2
        = (m ++ [(k, v1)]).map (fun kv => if kv.1 == k then (k, v2) else kv) := by
      unfold mapSet
      rw [if_pos h2]
    have h4 : mapSet m k v2 = m ++ [(k, v2)] := by
      unfold mapSet
      rw [if_neg ht]
    rw [h1, h3, List.map_append, h4]
    have h5 : m.map (fun kv => if kv.1 == k then (k, v2) else kv) = m := by
      have := List.map_congr_left (l := m)
        (f := fun kv => if kv.1 == k then (k, v2) else kv) (g := id)
        (fun kv hkv => by simp [hall kv hkv])
      simpa using this
    rw [h5]
    simp

/-- C4 counterexample: re-dumping the same interactive-window cell (same
metadata, kernel answering with the same source path) does not replace the
existing record — `dumpCell` pushes unconditionally, so the store afterwards
holds two identical records whose `debugFilePath`s coincide. -/
theorem dumpCell_redump_duplicates :
    dumpCell [mkDumpRecord md0 "/tmp/p.py"] (some md0) "x" (fun _ => .ok "/tmp/p.py")
      = .ok [mkDumpRecord md0 "/tmp/p.py", mkDumpRecord md0 "/tmp/p.py"] ∧
    ¬ (getDumpFilesForDeletion
        [mkDumpRecord md0 "/tmp/p.py", mkDumpRecord md0 "/tmp/p.py"]).Nodup :=
  ⟨rfl, by decide⟩

/-- C4 (amended): the two dump stores behave differently on a re-dump.  The
notebook adapter's Map-based store replaces: a second `Map.set` under the
same cell URI leaves the store as if only the second dump had happened.  The
interactive-window adapter's array store appends: every successful `dumpCell`
grows the store by exactly one record and keeps every previous record
(superseded records are retained, see the counterexample), so `debugFilePath`
uniqueness is not enforced by either store. -/
theorem dump_store_replacement_semantics (store : List CellDumpRecord)
    (md : InteractiveCellMetadata) (text p : String)
    (m : List (String × String)) (k p1 p2 t1 t2 : String) :
    dumpCell store (some md) text (fun _ => .ok p)
      = .ok (sortDescByLineIndex (store ++ [mkDumpRecord md p])) ∧
    (sortDescByLineIndex (store ++ [mkDumpRecord md p])).length = store.length + 1 ∧
    (∀ r ∈ store, r ∈ sortDescByLineIndex (store ++ [mkDumpRecord md p])) ∧
    dumpCellNb (dumpCellNb m k t1 (fun _ => .ok p1)) k t2 (fun _ => .ok p2)
      = dumpCellNb m k t2 (fun _ => .ok p2) := by
  refine ⟨rfl, ?_, ?_, ?_⟩
  · simp [sortDesc_length]
  · intro r hr
    exact mem_sortDesc.mpr (List.mem_append_left _ hr)
  · simp [dumpCellNb, mapSet_mapSet]

theorem dump_store_replacement_semantics_witness :
    recA ∈ sortDescByLineIndex ([recA] ++ [mkDumpRecord md0 "/tmp/z.py"]) :=
  (dump_store_replacement_semantics [recA] md0 "x" "/tmp/z.py" [] "u" "p1" "p2" "t1"
      "t2").2.2.1 recA (by decide)

theorem runDumps_cons (start : List CellDumpRecord)
    (op : InteractiveCellMetadata × String) (ops : List (InteractiveCellMetadata × String)) :
    runDumps start (op :: ops)
      = runDumps (sortDescByLineIndex (start ++ [mkDumpRecord op.1 op.2])) ops := rfl

theorem runDumps_length (ops : List (InteractiveCellMetadata × String))
    (start : List CellDumpRecord) :
    (runDumps start ops).length = start.length + ops.length := by
  induction ops generalizing start with
  | nil => simp [runDumps]
  | cons op ops ih =>
    rw [runDumps_cons, ih, sortDesc_length]
    simp
    omega

theorem mem_runDumps (ops : List (InteractiveCellMetadata × String))
    (start : List CellDumpRecord) (r : CellDumpRecord) (h : r ∈ start) :
    r ∈ runDumps start ops := by
  induction ops generalizing start with
  | nil => simpa [runDumps]
  | cons op ops ih =>
    rw [runDumps_cons]
    exact ih _ (mem_sortDesc.mpr (List.mem_append_left _ h))

theorem op_mem_runDumps (ops : List (InteractiveCellMetadata × String))
    (start : List CellDumpRecord) (op : InteractiveCellMetadata × String)
    (h : op ∈ ops) : mkDumpRecord op.1 op.2 ∈ runDumps start ops := by
  induction ops generalizing start with
  | nil => cases h
  | cons op' ops ih =>
    rw [runDumps_cons]
    rcases List.mem_cons.mp h with rfl | h'
    · exact mem_runDumps ops _ _ (mem_sortDesc.mpr (by simp))
    · exact ih _ h'

/-- C6 counterexample: in the notebook adapter, re-dumping cell `u1` (the
kernel now answering `/tmp/p2.py` instead of `/tmp/p1.py`) overwrites its
`cellToFile` entry, so `getDumpFilesForDeletion` returns only `/tmp/p2.py` —
the superseded record's path `/tmp/p1.py` is NOT included in the returned
list. -/
theorem getDumpFiles_superseded_dropped :
    getDumpFilesForDeletionNb
        (dumpCellNb (dumpCellNb [] "u1" "c" (fun _ => .ok "/tmp/p1.py")) "u1" "c"
          (fun _ => .ok "/tmp/p2.py")) = ["/tmp/p2.py"] ∧
    "/tmp/p1.py" ∉ getDumpFilesForDeletionNb
        (dumpCellNb (dumpCellNb [] "u1" "c" (fun _ => .ok "/tmp/p1.py")) "u1" "c"
          (fun _ => .ok "/tmp/p2.py")) := by
  constructor
  · rfl
  · intro hcon
    rw [show getDumpFilesForDeletionNb
        (dumpCellNb (dumpCellNb [] "u1" "c" (fun _ => .ok "/tmp/p1.py")) "u1" "c"
          (fun _ => .ok "/tmp/p2.py")) = ["/tmp/p2.py"] from rfl] at hcon
    revert hcon
    decide

/-- C6 (amended): for the interactive-window adapter the claim holds in
full: after any sequence of N successful dump operations,
`getDumpFilesForDeletion` returns exactly N paths and contains the
(normalized) path of every record ever created, including records later
superseded by a re-dump — the array store never removes records.  The
notebook adapter's Map-based variant instead keeps one path per cell URI,
dropping paths superseded by a re-dump of the same cell (see the
counterexample). -/
theorem getDumpFiles_exhaustive_iw (ops : List (InteractiveCellMetadata × String)) :
    (getDumpFilesForDeletion (runDumps [] ops)).length = ops.length ∧
    ∀ op ∈ ops, normalizePath op.2 ∈ getDumpFilesForDeletion (runDumps [] ops) := by
  constructor
  · simp [getDumpFilesForDeletion, runDumps_length]
  · intro op hop
    exact List.mem_map.mpr ⟨mkDumpRecord op.1 op.2, op_mem_runDumps ops [] op hop, rfl⟩

theorem getDumpFiles_exhaustive_iw_witness :
    (getDumpFilesForDeletion (runDumps [] [(mdA, "/tmp/a.py"), (mdA, "/tmp/c.py")])).length = 2 ∧
    normalizePath "/tmp/a.py"
      ∈ getDumpFilesForDeletion (runDumps [] [(mdA, "/tmp/a.py"), (mdA, "/tmp/c.py")]) :=
  ⟨(getDumpFiles_exhaustive_iw [(mdA, "/tmp/a.py"), (mdA, "/tmp/c.py")]).1,
   (getDumpFiles_exhaustive_iw [(mdA, "/tmp/a.py"), (mdA, "/tmp/c.py")]).2
     (mdA, "/tmp/a.py") (by decide)⟩

/-! ## Partitioner lemmas for the unmapped-breakpoint property -/

theorem pendingFakes_cons_inr (r : SbResponse) (ps : List Pending) :
    pendingFakes (Sum.inr r :: ps) = r :: pendingFakes ps := rfl

theorem pendingFakes_append (a b : List Pending) :
    pendingFakes (a ++ b) = pendingFakes a ++ pendingFakes b := by
  simp [pendingFakes]

theorem pendingGroups_append (a b : List Pending) :
    pendingGroups (a ++ b) = pendingGroups a ++ pendingGroups b := by
  simp [pendingGroups]

theorem pendingFakes_flushGroup (curBps : List Breakpoint) :
    pendingFakes (flushGroup curBps) = [] := by
  simp only [flushGroup]
  split <;> simp [pendingFakes]

theorem pendingGroups_flushGroup_flatten (curBps : List Breakpoint) :
    (pendingGroups (flushGroup curBps)).flatten = curBps := by
  simp only [flushGroup]
  split
  · simp_all [pendingGroups, List.isEmpty_iff]
  · simp [pendingGroups]

theorem partitionLoop_fakes (store : List CellDumpRecord) (bps : List Breakpoint)
    (cur : Option Int) (curBps : List Breakpoint) :
    pendingFakes (partitionLoop store bps cur curBps) =
      (bps.filter (fun bp => (findNearestPrecedingBySortKey store bp.line).isNone)).map
        fakeResponse := by
  induction bps generalizing cur curBps with
  | nil => simp [partitionLoop, pendingFakes_flushGroup]
  | cons bp rest ih =>
    simp only [partitionLoop]
    cases hfind : findNearestPrecedingBySortKey store bp.line with
    | some cell =>
      simp only [hfind]
      split
      · rw [pendingFakes_append, pendingFakes_flushGroup, ih]
        simp [List.filter_cons, hfind]
      · rw [ih]
        simp [List.filter_cons, hfind]
    | none =>
      simp only [hfind, pendingFakes_cons_inr, ih, List.filter_cons]
      simp

theorem partitionLoop_groups_flatten (store : List CellDumpRecord) (bps : List Breakpoint)
    (cur : Option Int) (curBps : List Breakpoint) :
    (pendingGroups (partitionLoop store bps cur curBps)).flatten =
      curBps ++ bps.filter (fun bp => (findNearestPrecedingBySortKey store bp.line).isSome) := by
  induction bps generalizing cur curBps with
  | nil => simp [partitionLoop, pendingGroups_flushGroup_flatten]
  | cons bp rest ih =>
    simp only [partitionLoop]
    cases hfind : findNearestPrecedingBySortKey store bp.line with
    | some cell =>
      simp only [hfind]
      split
      · rw [pendingGroups_append, List.flatten_append, pendingGroups_flushGroup_flatten, ih]
        simp [List.filter_cons, hfind]
      · rw [ih]
        simp [List.filter_cons, hfind]
    | none =>
      have hg : pendingGroups (Sum.inr (fakeResponse bp)
          :: partitionLoop store rest cur curBps)
          = pendingGroups (partitionLoop store rest cur curBps) := rfl
      simp only [hfind, hg, ih, List.filter_cons]
      simp

/-- C7: in the partitioner, the synthesized entries are exactly one
`verified: true` response per breakpoint owned by no record, in encounter
order, and the breakpoints forwarded in sub-requests are exactly the
breakpoints that do have an owning record — so no sub-request is ever issued
for an unowned breakpoint, and owned breakpoints are unaffected by the
synthesis. -/
theorem unmapped_breakpoints_synthesized (store : List CellDumpRecord)
    (bps : List Breakpoint) :
    pendingFakes (partitionLoop store bps none []) =
      (bps.filter (fun bp => (findNearestPrecedingBySortKey store bp.line).isNone)).map
        fakeResponse ∧
    (pendingGroups (partitionLoop store bps none [])).flatten =
      bps.filter (fun bp => (findNearestPrecedingBySortKey store bp.line).isSome) := by
  refine ⟨partitionLoop_fakes store bps none [], ?_⟩
  rw [partitionLoop_groups_flatten]
  rfl

end JupyterDebug
